import Mathlib

/-!
Shallow embedding of the pomodoro-tui session state machine.

Sources embedded:
* `src/app.rs` — the `App` struct, `App::default`, `App::new`, the key
  dispatch of `App::check_keys`, and `App::on_tick`.
* `src/sound.rs` — `play_timer_sound` is a fire-and-forget side effect; it is
  instrumented here as a counter field `sounds_played` that is incremented at
  exactly the call site of `play_timer_sound()` inside `on_tick`.

The enums `Screens` and `Pomodoros` live in `src/enums/`; their variants are
fully determined by the exhaustive `match` expressions in `app.rs`
(`draw_ui` matches all variants of both without a wildcard).
-/

namespace PomodoroTui

/-- The active view (`Screens` enum): the main menu, the timer view
    (`Pomodoro`), or the confirm-quit view (`Quit`). -/
inductive Screens where
  | Main
  | Pomodoro
  | Quit
deriving DecidableEq, Repr

/-- The current interval kind (`Pomodoros` enum): a focus interval
    (`Pomodoro`), a short break, or a long break. -/
inductive Pomodoros where
  | Pomodoro
  | ShortBreak
  | LongBreak
deriving DecidableEq, Repr

/-- The `App` struct from `src/app.rs` (all `usize` fields become `Nat`),
    plus the instrumentation field `sounds_played` counting invocations of
    the `play_timer_sound()` side effect. -/
structure App where
  is_running : Bool
  is_pomodoro_running : Bool
  current_screen : Screens
  current_type : Pomodoros
  pomodoro_time : Nat
  short_break_time : Nat
  long_break_time : Nat
  pomdoros : Nat
  short_breaks : Nat
  long_breaks : Nat
  short_breaks_before_long : Nat
  elapsed_seconds : Nat
  sounds_played : Nat
deriving DecidableEq, Repr

/-- `App::default`: fresh session with the compiled-in durations
    (focus 20 min, short break 5 min, long break 15 min, threshold 2). -/
def App.default : App where
  is_running := true
  is_pomodoro_running := false
  current_screen := Screens.Main
  current_type := Pomodoros.Pomodoro
  pomodoro_time := 20 * 60
  short_break_time := 5 * 60
  long_break_time := 15 * 60
  pomdoros := 0
  short_breaks := 0
  long_breaks := 0
  short_breaks_before_long := 2
  elapsed_seconds := 0
  sounds_played := 0

/-- `App::new`: fresh session with the given durations and threshold. -/
def App.new (pomodoro_time short_break_time long_break_time
    short_breaks_before_long : Nat) : App where
  is_running := true
  is_pomodoro_running := false
  current_screen := Screens.Main
  current_type := Pomodoros.Pomodoro
  pomodoro_time := pomodoro_time
  short_break_time := short_break_time
  long_break_time := long_break_time
  pomdoros := 0
  short_breaks := 0
  long_breaks := 0
  short_breaks_before_long := short_breaks_before_long
  elapsed_seconds := 0
  sounds_played := 0

/-- The decoded key press that `App::check_keys` dispatches on:
    the quit key `q`, the toggle key (spacebar), the back key (Escape),
    or any other key (the wildcard arm, a no-op; a release event likewise
    leaves the state unchanged and is covered by `other`). -/
inductive Command where
  | quit
  | toggle
  | back
  | other
deriving DecidableEq, Repr

/-- The key dispatch of `App::check_keys` (`src/app.rs`): the effect of one
    decoded key press on the session state. -/
def check_keys (key : Command) (s : App) : App :=
  match key with
  | Command.quit =>
      let s1 :=
        match s.current_screen with
        | Screens.Quit => { s with is_running := false }
        | Screens.Pomodoro => { s with is_pomodoro_running := false }
        | _ => s
      { s1 with current_screen := Screens.Quit }
  | Command.toggle =>
      match s.current_screen with
      | Screens.Main =>
          { s with current_screen := Screens.Pomodoro, is_pomodoro_running := true }
      | Screens.Pomodoro =>
          { s with is_pomodoro_running := !s.is_pomodoro_running }
      | _ => s
  | Command.back =>
      match s.current_screen with
      | Screens.Pomodoro =>
          { s with is_pomodoro_running := false, current_screen := Screens.Main }
      | Screens.Quit =>
          { s with current_screen := Screens.Main }
      | _ => s
  | Command.other => s

/-- `App::on_tick` (`src/app.rs`): increment `elapsed_seconds` when the
    pomodoro is running, then check the current interval kind for completion
    against its configured duration; `sounds_played` is incremented exactly
    where the source calls `play_timer_sound()`. -/
def on_tick (s : App) : App :=
  let s1 :=
    if s.is_pomodoro_running then
      { s with elapsed_seconds := s.elapsed_seconds + 1 }
    else s
  match s1.current_type with
  | Pomodoros.Pomodoro =>
      if s1.elapsed_seconds ≥ s1.pomodoro_time then
        let s2 := { s1 with sounds_played := s1.sounds_played + 1,
                            pomdoros := s1.pomdoros + 1,
                            elapsed_seconds := 0 }
        if s2.short_breaks = s2.short_breaks_before_long then
          { s2 with current_type := Pomodoros.LongBreak }
        else
          { s2 with current_type := Pomodoros.ShortBreak }
      else s1
  | Pomodoros.ShortBreak =>
      if s1.elapsed_seconds ≥ s1.short_break_time then
        { s1 with short_breaks := s1.short_breaks + 1,
                  elapsed_seconds := 0,
                  current_type := Pomodoros.Pomodoro }
      else s1
  | Pomodoros.LongBreak =>
      if s1.elapsed_seconds ≥ s1.long_break_time then
        { s1 with long_breaks := s1.long_breaks + 1,
                  elapsed_seconds := 0,
                  current_type := Pomodoros.Pomodoro }
      else s1

/-- One event processed by the control loop (`App::run`): either a decoded
    key press handed to `check_keys`, or a tick handed to `on_tick`. -/
inductive Input where
  | key (c : Command)
  | tick
deriving DecidableEq, Repr

/-- The effect of one control-loop event on the session state. -/
def step (i : Input) (s : App) : App :=
  match i with
  | Input.key c => check_keys c s
  | Input.tick => on_tick s

/-- Fold a sequence of control-loop events over a session state. -/
def steps (l : List Input) (s : App) : App :=
  match l with
  | [] => s
  | i :: rest => steps rest (step i s)

/-- Iterated ticks: `ticks n s` is the state after `n` calls to `on_tick`. -/
def ticks (n : Nat) (s : App) : App :=
  match n with
  | 0 => s
  | n + 1 => ticks n (on_tick s)

/-- The elapsed-seconds value that `on_tick` checks against the current
    interval duration: the prior value, incremented when the pomodoro
    is running. -/
def tickElapsed (s : App) : Nat :=
  if s.is_pomodoro_running then s.elapsed_seconds + 1 else s.elapsed_seconds

/-- The configured duration of the current interval kind, the completion
    threshold `on_tick` uses. -/
def currentDuration (s : App) : Nat :=
  match s.current_type with
  | Pomodoros.Pomodoro => s.pomodoro_time
  | Pomodoros.ShortBreak => s.short_break_time
  | Pomodoros.LongBreak => s.long_break_time

/-! ### Unfolding equations for `on_tick`, one per interval kind -/

/-- Unfolding `on_tick` on a focus interval. -/
theorem on_tick_pomodoro_eq (r pr : Bool) (scr : Screens)
    (pt st lt p sb lb sbl e sp : Nat) :
    on_tick ⟨r, pr, scr, Pomodoros.Pomodoro, pt, st, lt, p, sb, lb, sbl, e, sp⟩ =
      (if tickElapsed ⟨r, pr, scr, Pomodoros.Pomodoro, pt, st, lt, p, sb, lb, sbl, e, sp⟩ ≥ pt then
         (if sb = sbl then
            ⟨r, pr, scr, Pomodoros.LongBreak, pt, st, lt, p + 1, sb, lb, sbl, 0, sp + 1⟩
          else
            ⟨r, pr, scr, Pomodoros.ShortBreak, pt, st, lt, p + 1, sb, lb, sbl, 0, sp + 1⟩)
       else
         ⟨r, pr, scr, Pomodoros.Pomodoro, pt, st, lt, p, sb, lb, sbl,
           tickElapsed ⟨r, pr, scr, Pomodoros.Pomodoro, pt, st, lt, p, sb, lb, sbl, e, sp⟩, sp⟩) := by
  cases pr <;> rfl

/-- Unfolding `on_tick` on a short break. -/
theorem on_tick_shortbreak_eq (r pr : Bool) (scr : Screens)
    (pt st lt p sb lb sbl e sp : Nat) :
    on_tick ⟨r, pr, scr, Pomodoros.ShortBreak, pt, st, lt, p, sb, lb, sbl, e, sp⟩ =
      (if tickElapsed ⟨r, pr, scr, Pomodoros.ShortBreak, pt, st, lt, p, sb, lb, sbl, e, sp⟩ ≥ st then
         ⟨r, pr, scr, Pomodoros.Pomodoro, pt, st, lt, p, sb + 1, lb, sbl, 0, sp⟩
       else
         ⟨r, pr, scr, Pomodoros.ShortBreak, pt, st, lt, p, sb, lb, sbl,
           tickElapsed ⟨r, pr, scr, Pomodoros.ShortBreak, pt, st, lt, p, sb, lb, sbl, e, sp⟩, sp⟩) := by
  cases pr <;> rfl

/-- Unfolding `on_tick` on a long break. -/
theorem on_tick_longbreak_eq (r pr : Bool) (scr : Screens)
    (pt st lt p sb lb sbl e sp : Nat) :
    on_tick ⟨r, pr, scr, Pomodoros.LongBreak, pt, st, lt, p, sb, lb, sbl, e, sp⟩ =
      (if tickElapsed ⟨r, pr, scr, Pomodoros.LongBreak, pt, st, lt, p, sb, lb, sbl, e, sp⟩ ≥ lt then
         ⟨r, pr, scr, Pomodoros.Pomodoro, pt, st, lt, p, sb, lb + 1, sbl, 0, sp⟩
       else
         ⟨r, pr, scr, Pomodoros.LongBreak, pt, st, lt, p, sb, lb, sbl,
           tickElapsed ⟨r, pr, scr, Pomodoros.LongBreak, pt, st, lt, p, sb, lb, sbl, e, sp⟩, sp⟩) := by
  cases pr <;> rfl

/-! ### Frame lemmas -/

/-- Key handling never touches the interval kind, the configured durations,
    the counters, the elapsed time, or the sound counter. -/
theorem check_keys_frame (c : Command) (s : App) :
    (check_keys c s).current_type = s.current_type ∧
    (check_keys c s).pomodoro_time = s.pomodoro_time ∧
    (check_keys c s).short_break_time = s.short_break_time ∧
    (check_keys c s).long_break_time = s.long_break_time ∧
    (check_keys c s).pomdoros = s.pomdoros ∧
    (check_keys c s).short_breaks = s.short_breaks ∧
    (check_keys c s).long_breaks = s.long_breaks ∧
    (check_keys c s).short_breaks_before_long = s.short_breaks_before_long ∧
    (check_keys c s).elapsed_seconds = s.elapsed_seconds ∧
    (check_keys c s).sounds_played = s.sounds_played := by
  obtain ⟨r, pr, scr, ty, pt, st, lt, p, sb, lb, sbl, e, sp⟩ := s
  cases c <;> cases scr <;>
    exact ⟨rfl, rfl, rfl, rfl, rfl, rfl, rfl, rfl, rfl, rfl⟩

/-- A tick never touches the running flags, the screen, the configured
    durations, or the threshold. -/
theorem on_tick_frame (s : App) :
    (on_tick s).is_running = s.is_running ∧
    (on_tick s).is_pomodoro_running = s.is_pomodoro_running ∧
    (on_tick s).current_screen = s.current_screen ∧
    (on_tick s).pomodoro_time = s.pomodoro_time ∧
    (on_tick s).short_break_time = s.short_break_time ∧
    (on_tick s).long_break_time = s.long_break_time ∧
    (on_tick s).short_breaks_before_long = s.short_breaks_before_long := by
  obtain ⟨r, pr, scr, ty, pt, st, lt, p, sb, lb, sbl, e, sp⟩ := s
  cases pr <;> cases ty <;> simp only [on_tick] <;> split_ifs <;>
    exact ⟨rfl, rfl, rfl, rfl, rfl, rfl, rfl⟩

/-- Shared completion lemma: on a tick that completes a focus interval while
    the short-break count equals the threshold, the next interval kind is
    `LongBreak`. -/
theorem focus_complete_at_threshold (s : App)
    (hsb : s.short_breaks = s.short_breaks_before_long)
    (hty : s.current_type = Pomodoros.Pomodoro)
    (hc : s.pomodoro_time ≤ tickElapsed s) :
    (on_tick s).current_type = Pomodoros.LongBreak := by
  obtain ⟨r, pr, scr, ty, pt, st, lt, p, sb, lb, sbl, e, sp⟩ := s
  cases ty
  · simp only [tickElapsed] at hc
    cases pr <;> simp_all only [on_tick] <;> split_ifs <;> simp_all
  · exact Pomodoros.noConfusion hty
  · exact Pomodoros.noConfusion hty

/-! ### Claim C6 -/

/-- Claim C6: in every state whose completed short-break count equals the
    `short_breaks_before_long` threshold, a tick that completes the current
    focus interval transitions to `LongBreak` and not to `ShortBreak`. -/
theorem c6_threshold_focus_to_long_break (s : App)
    (hsb : s.short_breaks = s.short_breaks_before_long)
    (hty : s.current_type = Pomodoros.Pomodoro)
    (hc : s.pomodoro_time ≤ tickElapsed s) :
    (on_tick s).current_type = Pomodoros.LongBreak ∧
    (on_tick s).current_type ≠ Pomodoros.ShortBreak := by
  have h := focus_complete_at_threshold s hsb hty hc
  exact ⟨h, by simp [h]⟩

theorem c6_witness :
    (on_tick (check_keys Command.toggle (App.new 1 1 1 0))).current_type =
      Pomodoros.LongBreak ∧
    (on_tick (check_keys Command.toggle (App.new 1 1 1 0))).current_type ≠
      Pomodoros.ShortBreak :=
  c6_threshold_focus_to_long_break _ (by decide) (by decide) (by decide)

/-! ### Claim C7 -/

/-- Splitting a tick run: `m + n` ticks are `m` ticks followed by `n`. -/
theorem ticks_add (m n : Nat) (s : App) :
    ticks (m + n) s = ticks n (ticks m s) := by
  induction m generalizing s with
  | zero => simp [ticks, Nat.zero_add]
  | succ m ih =>
      have h : m + 1 + n = (m + n) + 1 := by omega
      rw [h]
      show ticks (m + n) (on_tick s) = ticks n (ticks m (on_tick s))
      exact ih (on_tick s)

/-- A tick of a running focus interval that stays strictly below the
    configured duration just increments the elapsed time. -/
theorem on_tick_focus_no_complete (s : App)
    (hty : s.current_type = Pomodoros.Pomodoro)
    (hpr : s.is_pomodoro_running = true)
    (hlt : s.elapsed_seconds + 1 < s.pomodoro_time) :
    on_tick s = { s with elapsed_seconds := s.elapsed_seconds + 1 } := by
  obtain ⟨r, pr, scr, ty, pt, st, lt, p, sb, lb, sbl, e, sp⟩ := s
  cases ty <;> try exact Pomodoros.noConfusion hty
  cases pr <;> try exact Bool.noConfusion hpr
  simp only at hlt
  rw [on_tick_pomodoro_eq]
  rw [if_neg (by simp [tickElapsed]; omega)]
  simp [tickElapsed]

/-- A completion-free run of `n` ticks of a running focus interval adds `n`
    to the elapsed time and changes nothing else. -/
theorem ticks_focus_no_complete (n : Nat) (s : App)
    (hty : s.current_type = Pomodoros.Pomodoro)
    (hpr : s.is_pomodoro_running = true)
    (hlt : s.elapsed_seconds + n < s.pomodoro_time) :
    ticks n s = { s with elapsed_seconds := s.elapsed_seconds + n } := by
  induction n generalizing s with
  | zero => simp [ticks]
  | succ n ih =>
      have h1 := on_tick_focus_no_complete s hty hpr (by omega)
      have h2 := ih { s with elapsed_seconds := s.elapsed_seconds + 1 }
        hty hpr (by simp; omega)
      show ticks n (on_tick s) = _
      rw [h1, h2]
      have h3 : s.elapsed_seconds + 1 + n = s.elapsed_seconds + (n + 1) := by omega
      simp [h3]

/-- A fresh default session with the timer flag set, as after the first
    Toggle from the main screen. -/
def c7_start : App := { App.default with is_pomodoro_running := true }

/-- Claim C7: from a fresh default session (focus 1200 s, short break 300 s,
    long break 900 s, threshold 2) with the timer active, after exactly 1200
    ticks one focus interval has completed, the elapsed time has been reset
    to 0, and the interval kind is `ShortBreak`. -/
theorem c7_first_focus_interval :
    (ticks 1200 c7_start).pomdoros = 1 ∧
    (ticks 1200 c7_start).elapsed_seconds = 0 ∧
    (ticks 1200 c7_start).current_type = Pomodoros.ShortBreak := by
  have h1 : ticks 1199 c7_start = { c7_start with elapsed_seconds := 1199 } := by
    rw [ticks_focus_no_complete 1199 c7_start rfl rfl (by decide)]
    rfl
  have h2 : ticks 1200 c7_start = ticks 1 (ticks 1199 c7_start) :=
    ticks_add 1199 1 c7_start
  rw [h2, h1]
  decide

/-! ### Claim C8 -/

/-- Claim C8: from the Main screen, handling Quit and then Back returns the
    session to exactly the prior state: the screen is Main again, `running`
    is unchanged (still true if it was), and the timer flag, all counters
    and the elapsed time are untouched. -/
theorem c8_quit_back_from_main (s : App) (h : s.current_screen = Screens.Main) :
    check_keys Command.back (check_keys Command.quit s) = s ∧
    (check_keys Command.back (check_keys Command.quit s)).current_screen =
      Screens.Main := by
  obtain ⟨r, pr, scr, ty, pt, st, lt, p, sb, lb, sbl, e, sp⟩ := s
  cases scr
  · exact ⟨rfl, rfl⟩
  · exact Screens.noConfusion h
  · exact Screens.noConfusion h

theorem c8_witness :
    check_keys Command.back (check_keys Command.quit App.default) = App.default ∧
    (check_keys Command.back (check_keys Command.quit App.default)).current_screen =
      Screens.Main :=
  c8_quit_back_from_main App.default rfl

/-! ### Claim C10 -/

/-- Commands that are no-ops for the given screen: any unmapped key, Toggle
    on the confirm-quit screen, Back on the main screen. -/
def no_op (c : Command) (scr : Screens) : Bool :=
  match c, scr with
  | Command.other, _ => true
  | Command.toggle, Screens.Quit => true
  | Command.back, Screens.Main => true
  | _, _ => false

/-- Claim C10: handling a command that is unrecognized or a no-op for the
    current screen (Toggle on the confirm-quit screen, Back on the main
    screen, any unmapped key) leaves every field of the session unchanged. -/
theorem c10_noop_commands_identity (c : Command) (s : App)
    (h : no_op c s.current_screen = true) :
    check_keys c s = s := by
  obtain ⟨r, pr, scr, ty, pt, st, lt, p, sb, lb, sbl, e, sp⟩ := s
  cases c <;> cases scr <;> first | rfl | exact Bool.noConfusion h

theorem c10_witness : check_keys Command.other App.default = App.default :=
  c10_noop_commands_identity Command.other App.default rfl

/-! ### Claim C2 -/

/-- Claim C2 counterexample: with one tick interleaved before the Back, the
    Back leaves `elapsed_seconds` at 1 (the in-progress time is not
    discarded), and the Toggle-Back-Toggle round trip resumes at elapsed
    time 1, unlike a single Toggle from a fresh session, which has elapsed
    time 0. -/
theorem c2_roundtrip_counterexample :
    (check_keys Command.back
      (on_tick (check_keys Command.toggle App.default))).elapsed_seconds = 1 ∧
    (check_keys Command.toggle (check_keys Command.back
      (on_tick (check_keys Command.toggle App.default)))).elapsed_seconds = 1 ∧
    (check_keys Command.toggle App.default).elapsed_seconds = 0 := by
  decide

/-- Claim C2 (amended): Back from the timer screen sets the timer flag to
    false and moves to Main but leaves `elapsed_seconds` unchanged, so the
    interval resumes at its prior elapsed time when the timer is started
    again; the Toggle-Back-Toggle round trip reproduces the state of a
    single Toggle from a fresh session only when no tick occurred in
    between. -/
theorem c2_back_keeps_elapsed (s : App) (h : s.current_screen = Screens.Pomodoro) :
    ((check_keys Command.back s).is_pomodoro_running = false ∧
     (check_keys Command.back s).current_screen = Screens.Main ∧
     (check_keys Command.back s).elapsed_seconds = s.elapsed_seconds) ∧
    check_keys Command.toggle (check_keys Command.back
      (check_keys Command.toggle App.default)) =
      check_keys Command.toggle App.default := by
  obtain ⟨r, pr, scr, ty, pt, st, lt, p, sb, lb, sbl, e, sp⟩ := s
  cases scr <;> try exact Screens.noConfusion h
  exact ⟨⟨rfl, rfl, rfl⟩, rfl⟩

theorem c2_witness :
    ((check_keys Command.back
        (check_keys Command.toggle App.default)).is_pomodoro_running = false ∧
     (check_keys Command.back
        (check_keys Command.toggle App.default)).current_screen = Screens.Main ∧
     (check_keys Command.back
        (check_keys Command.toggle App.default)).elapsed_seconds =
       (check_keys Command.toggle App.default).elapsed_seconds) ∧
    check_keys Command.toggle (check_keys Command.back
      (check_keys Command.toggle App.default)) =
      check_keys Command.toggle App.default :=
  c2_back_keeps_elapsed (check_keys Command.toggle App.default) (by decide)

/-! ### Claim C3 -/

/-- Session used for the C3 counterexample: one-second intervals, threshold
    5, started by a Toggle from the main screen. -/
def c3_start : App := check_keys Command.toggle (App.new 1 1 1 5)

/-- Claim C3 counterexample: at the second tick the short break completes —
    an interval boundary, since the short-break counter increments and the
    kind returns to focus — yet the audio-cue counter does not change. -/
theorem c3_break_boundary_silent :
    (ticks 1 c3_start).current_type = Pomodoros.ShortBreak ∧
    (ticks 2 c3_start).short_breaks = (ticks 1 c3_start).short_breaks + 1 ∧
    (ticks 2 c3_start).current_type = Pomodoros.Pomodoro ∧
    (ticks 2 c3_start).sounds_played = (ticks 1 c3_start).sounds_played := by
  decide

/-- Claim C3 (amended): the audio cue fires exactly on ticks that complete a
    focus interval; ticks that complete a short break or a long break play
    nothing. -/
theorem c3_sound_iff_focus_completion (s : App) :
    (on_tick s).sounds_played =
      (if s.current_type = Pomodoros.Pomodoro ∧ s.pomodoro_time ≤ tickElapsed s
       then s.sounds_played + 1 else s.sounds_played) := by
  obtain ⟨r, pr, scr, ty, pt, st, lt, p, sb, lb, sbl, e, sp⟩ := s
  cases ty
  · rw [on_tick_pomodoro_eq]
    cases pr <;> split_ifs <;> simp_all [tickElapsed] <;> omega
  · rw [on_tick_shortbreak_eq]
    cases pr <;> split_ifs <;> simp_all [tickElapsed]
  · rw [on_tick_longbreak_eq]
    cases pr <;> split_ifs <;> simp_all [tickElapsed]

/-! ### Claim C4 -/

/-- Claim C4 counterexample: entering ConfirmQuit from the timer screen with
    the timer active and then exiting with Back does not resume the timer:
    after q then Esc the timer flag is still false and the screen is Main. -/
theorem c4_no_resume_counterexample :
    (check_keys Command.toggle App.default).is_pomodoro_running = true ∧
    (check_keys Command.quit
      (check_keys Command.toggle App.default)).current_screen = Screens.Quit ∧
    (check_keys Command.quit
      (check_keys Command.toggle App.default)).is_pomodoro_running = false ∧
    (check_keys Command.back (check_keys Command.quit
      (check_keys Command.toggle App.default))).is_pomodoro_running = false ∧
    (check_keys Command.back (check_keys Command.quit
      (check_keys Command.toggle App.default))).current_screen = Screens.Main := by
  decide

/-- Claim C4 (amended): no command handled on the ConfirmQuit screen touches
    the three interval counters or the elapsed time; Quit from the timer
    screen suspends the timer flag and shows ConfirmQuit; Back from
    ConfirmQuit moves to Main and leaves the timer flag unchanged — it does
    not resume it. -/
theorem c4_confirmquit_frame (s : App) :
    (s.current_screen = Screens.Quit → ∀ c : Command,
      (check_keys c s).pomdoros = s.pomdoros ∧
      (check_keys c s).short_breaks = s.short_breaks ∧
      (check_keys c s).long_breaks = s.long_breaks ∧
      (check_keys c s).elapsed_seconds = s.elapsed_seconds) ∧
    (s.current_screen = Screens.Pomodoro →
      (check_keys Command.quit s).is_pomodoro_running = false ∧
      (check_keys Command.quit s).current_screen = Screens.Quit) ∧
    (s.current_screen = Screens.Quit →
      (check_keys Command.back s).current_screen = Screens.Main ∧
      (check_keys Command.back s).is_pomodoro_running = s.is_pomodoro_running) := by
  obtain ⟨r, pr, scr, ty, pt, st, lt, p, sb, lb, sbl, e, sp⟩ := s
  refine ⟨?_, ?_, ?_⟩ <;> intro h
  · intro c
    cases scr <;> try exact Screens.noConfusion h
    cases c <;> exact ⟨rfl, rfl, rfl, rfl⟩
  · cases scr <;> try exact Screens.noConfusion h
    exact ⟨rfl, rfl⟩
  · cases scr <;> try exact Screens.noConfusion h
    exact ⟨rfl, rfl⟩

/-! ### Claim C1 -/

/-- Session used for the C1 counterexample: one-second intervals, threshold
    1, started by a Toggle from the main screen. -/
def c1_start : App := check_keys Command.toggle (App.new 1 1 1 1)

/-- Claim C1 counterexample: the first long break begins at tick 3 and
    completes at tick 4; at tick 5 the next focus completion transitions to
    a long break again, while the short-break counter still equals the
    threshold — it never climbs past it. -/
theorem c1_long_break_recurs :
    (ticks 3 c1_start).current_type = Pomodoros.LongBreak ∧
    (ticks 4 c1_start).long_breaks = 1 ∧
    (ticks 4 c1_start).current_type = Pomodoros.Pomodoro ∧
    (ticks 5 c1_start).current_type = Pomodoros.LongBreak ∧
    (ticks 5 c1_start).short_breaks = 1 ∧
    (ticks 5 c1_start).short_breaks_before_long = 1 := by
  decide

/-- One control-loop event preserves the configuration that rules the
    long-break cadence: short-break count pinned at the threshold and the
    interval not a short break. -/
theorem step_preserves_frozen (i : Input) (s : App)
    (hsb : s.short_breaks = s.short_breaks_before_long)
    (hty : s.current_type ≠ Pomodoros.ShortBreak) :
    (step i s).short_breaks = (step i s).short_breaks_before_long ∧
    (step i s).current_type ≠ Pomodoros.ShortBreak ∧
    (step i s).short_breaks_before_long = s.short_breaks_before_long := by
  cases i with
  | key c =>
      simp only [step]
      obtain ⟨h1, h2, h3, h4, h5, h6, h7, h8, h9, h10⟩ := check_keys_frame c s
      refine ⟨?_, ?_, h8⟩
      · rw [h6, h8]; exact hsb
      · rw [h1]; exact hty
  | tick =>
      simp only [step]
      obtain ⟨r, pr, scr, ty, pt, st, lt, p, sb, lb, sbl, e, sp⟩ := s
      simp only at hsb hty
      cases ty
      · rw [on_tick_pomodoro_eq]
        split_ifs with h1
        · exact ⟨hsb, by simp, rfl⟩
        · exact ⟨hsb, by simp, rfl⟩
      · exact absurd rfl hty
      · rw [on_tick_longbreak_eq]
        split_ifs with h1
        · exact ⟨hsb, by simp, rfl⟩
        · exact ⟨hsb, by simp, rfl⟩

/-- Any sequence of control-loop events preserves the frozen cadence
    configuration. -/
theorem steps_preserves_frozen (l : List Input) (s : App)
    (hsb : s.short_breaks = s.short_breaks_before_long)
    (hty : s.current_type ≠ Pomodoros.ShortBreak) :
    (steps l s).short_breaks = (steps l s).short_breaks_before_long ∧
    (steps l s).current_type ≠ Pomodoros.ShortBreak ∧
    (steps l s).short_breaks_before_long = s.short_breaks_before_long := by
  induction l generalizing s with
  | nil => exact ⟨hsb, hty, rfl⟩
  | cons i rest ih =>
      obtain ⟨h1, h2, h3⟩ := step_preserves_frozen i s hsb hty
      obtain ⟨g1, g2, g3⟩ := ih (step i s) h1 h2
      exact ⟨g1, g2, g3.trans h3⟩

/-- Claim C1 (amended): after the first long break the short-break counter
    stays frozen at exactly the threshold (it never climbs past it), a short
    break never begins again, and every later tick that completes a focus
    interval transitions to a long break once more. Formally: from any state
    whose short-break count equals the threshold and whose interval kind is
    not a short break — as holds from the moment the first long break is
    entered — every sequence of commands and ticks preserves both facts, and
    a focus completion in the resulting state again yields `LongBreak`. -/
theorem c1_long_break_cadence (s : App) (l : List Input)
    (hsb : s.short_breaks = s.short_breaks_before_long)
    (hty : s.current_type ≠ Pomodoros.ShortBreak) :
    (steps l s).short_breaks = s.short_breaks_before_long ∧
    (steps l s).current_type ≠ Pomodoros.ShortBreak ∧
    ((steps l s).current_type = Pomodoros.Pomodoro →
      (steps l s).pomodoro_time ≤ tickElapsed (steps l s) →
      (on_tick (steps l s)).current_type = Pomodoros.LongBreak) := by
  obtain ⟨h1, h2, h3⟩ := steps_preserves_frozen l s hsb hty
  exact ⟨h1.trans h3, h2,
    fun hp hc => focus_complete_at_threshold _ h1 hp hc⟩

theorem c1_witness :
    (steps ([] : List Input) (ticks 4 c1_start)).short_breaks =
      (ticks 4 c1_start).short_breaks_before_long ∧
    (steps ([] : List Input) (ticks 4 c1_start)).current_type ≠
      Pomodoros.ShortBreak ∧
    (on_tick (steps ([] : List Input) (ticks 4 c1_start))).current_type =
      Pomodoros.LongBreak :=
  ⟨(c1_long_break_cadence (ticks 4 c1_start) [] (by decide) (by decide)).1,
   (c1_long_break_cadence (ticks 4 c1_start) [] (by decide) (by decide)).2.1,
   (c1_long_break_cadence (ticks 4 c1_start) [] (by decide) (by decide)).2.2
     (by decide) (by decide)⟩

theorem c4_witness :
    (check_keys Command.toggle
      (check_keys Command.quit App.default)).elapsed_seconds =
      (check_keys Command.quit App.default).elapsed_seconds ∧
    (check_keys Command.quit
      (check_keys Command.toggle App.default)).is_pomodoro_running = false ∧
    (check_keys Command.back
      (check_keys Command.quit App.default)).current_screen = Screens.Main :=
  ⟨((c4_confirmquit_frame (check_keys Command.quit App.default)).1
      (by decide) Command.toggle).2.2.2,
   ((c4_confirmquit_frame (check_keys Command.toggle App.default)).2.1
      (by decide)).1,
   ((c4_confirmquit_frame (check_keys Command.quit App.default)).2.2
      (by decide)).1⟩

/-! ### Claim C5 -/

/-- One control-loop event preserves the invariant that the timer flag is
    set only while the timer screen is active. -/
theorem step_preserves_active_screen (i : Input) (s : App)
    (h : s.is_pomodoro_running = true → s.current_screen = Screens.Pomodoro) :
    (step i s).is_pomodoro_running = true →
      (step i s).current_screen = Screens.Pomodoro := by
  cases i with
  | tick =>
      intro hr
      obtain ⟨f1, f2, f3, f4, f5, f6, f7⟩ := on_tick_frame s
      simp only [step] at hr ⊢
      rw [f3]
      exact h (by rw [f2] at hr; exact hr)
  | key c =>
      simp only [step]
      obtain ⟨r, pr, scr, ty, pt, st, lt, p, sb, lb, sbl, e, sp⟩ := s
      simp only at h
      cases c <;> cases scr <;> cases pr <;> simp_all [check_keys]

/-- Any sequence of control-loop events preserves the timer-flag/screen
    invariant. -/
theorem steps_active_screen (l : List Input) (s : App)
    (h : s.is_pomodoro_running = true → s.current_screen = Screens.Pomodoro) :
    (steps l s).is_pomodoro_running = true →
      (steps l s).current_screen = Screens.Pomodoro := by
  induction l generalizing s with
  | nil => exact h
  | cons i rest ih => exact ih (step i s) (step_preserves_active_screen i s h)

/-- A tick taken with the timer flag off never increases the elapsed time. -/
theorem on_tick_inactive_elapsed_le (s : App)
    (h : s.is_pomodoro_running = false) :
    (on_tick s).elapsed_seconds ≤ s.elapsed_seconds := by
  obtain ⟨r, pr, scr, ty, pt, st, lt, p, sb, lb, sbl, e, sp⟩ := s
  simp only at h
  subst h
  cases ty
  · rw [on_tick_pomodoro_eq]; split_ifs <;> simp [tickElapsed]
  · rw [on_tick_shortbreak_eq]; split_ifs <;> simp [tickElapsed]
  · rw [on_tick_longbreak_eq]; split_ifs <;> simp [tickElapsed]

/-- Claim C5: in every state reachable from a fresh default session by any
    sequence of commands and ticks, the timer flag is true only while the
    timer screen is the active one; moreover a command never changes the
    elapsed time, and a tick taken while another screen is active never
    increases it — so the elapsed time only increases through ticks taken
    on the timer screen. -/
theorem c5_active_only_on_timer (l : List Input) :
    ((steps l App.default).is_pomodoro_running = true →
      (steps l App.default).current_screen = Screens.Pomodoro) ∧
    (∀ c : Command, (check_keys c (steps l App.default)).elapsed_seconds =
      (steps l App.default).elapsed_seconds) ∧
    ((steps l App.default).current_screen ≠ Screens.Pomodoro →
      (on_tick (steps l App.default)).elapsed_seconds ≤
        (steps l App.default).elapsed_seconds) := by
  have hinv := steps_active_screen l App.default (fun h => Bool.noConfusion h)
  refine ⟨hinv, fun c => (check_keys_frame c _).2.2.2.2.2.2.2.2.1,
    fun hscr => ?_⟩
  apply on_tick_inactive_elapsed_le
  cases hpr : (steps l App.default).is_pomodoro_running
  · rfl
  · exact absurd (hinv hpr) hscr

theorem c5_witness :
    (steps [Input.key Command.toggle] App.default).current_screen =
      Screens.Pomodoro ∧
    (check_keys Command.other (steps ([] : List Input) App.default)).elapsed_seconds =
      (steps ([] : List Input) App.default).elapsed_seconds ∧
    (on_tick (steps ([] : List Input) App.default)).elapsed_seconds ≤
      (steps ([] : List Input) App.default).elapsed_seconds :=
  ⟨(c5_active_only_on_timer [Input.key Command.toggle]).1 (by decide),
   (c5_active_only_on_timer []).2.1 Command.other,
   (c5_active_only_on_timer []).2.2 (by decide)⟩

/-! ### Claim C9 -/

/-- `currentDuration` on a focus interval. -/
theorem currentDuration_pomodoro (r pr : Bool) (scr : Screens)
    (pt st lt p sb lb sbl e sp : Nat) :
    currentDuration ⟨r, pr, scr, Pomodoros.Pomodoro, pt, st, lt, p, sb, lb, sbl, e, sp⟩ = pt :=
  rfl

/-- `currentDuration` on a short break. -/
theorem currentDuration_shortbreak (r pr : Bool) (scr : Screens)
    (pt st lt p sb lb sbl e sp : Nat) :
    currentDuration ⟨r, pr, scr, Pomodoros.ShortBreak, pt, st, lt, p, sb, lb, sbl, e, sp⟩ = st :=
  rfl

/-- `currentDuration` on a long break. -/
theorem currentDuration_longbreak (r pr : Bool) (scr : Screens)
    (pt st lt p sb lb sbl e sp : Nat) :
    currentDuration ⟨r, pr, scr, Pomodoros.LongBreak, pt, st, lt, p, sb, lb, sbl, e, sp⟩ = lt :=
  rfl

/-- Key handling never changes the completion threshold of the current
    interval. -/
theorem check_keys_currentDuration (c : Command) (s : App) :
    currentDuration (check_keys c s) = currentDuration s := by
  obtain ⟨r, pr, scr, ty, pt, st, lt, p, sb, lb, sbl, e, sp⟩ := s
  cases c <;> cases scr <;> cases ty <;> rfl

/-- A tick keeps the elapsed time strictly below the configured duration of
    the then-current interval kind, whenever all three durations are at
    least 1. -/
theorem on_tick_elapsed_lt (s : App)
    (hpt : 1 ≤ s.pomodoro_time) (hst : 1 ≤ s.short_break_time)
    (hlb : 1 ≤ s.long_break_time) :
    (on_tick s).elapsed_seconds < currentDuration (on_tick s) := by
  obtain ⟨r, pr, scr, ty, pt, st, lt, p, sb, lb, sbl, e, sp⟩ := s
  simp only at hpt hst hlb
  cases ty
  · rw [on_tick_pomodoro_eq]
    split_ifs with h1 h2 <;>
      simp_all [tickElapsed, currentDuration_pomodoro,
        currentDuration_shortbreak, currentDuration_longbreak] <;>
      cases pr <;> simp_all <;> omega
  · rw [on_tick_shortbreak_eq]
    split_ifs with h1 <;>
      simp_all [tickElapsed, currentDuration_pomodoro,
        currentDuration_shortbreak, currentDuration_longbreak]
    cases pr <;> simp_all <;> omega
  · rw [on_tick_longbreak_eq]
    split_ifs with h1 <;>
      simp_all [tickElapsed, currentDuration_pomodoro,
        currentDuration_shortbreak, currentDuration_longbreak]
    cases pr <;> simp_all <;> omega

/-- One control-loop event preserves positivity of the durations and the
    elapsed-below-duration bound. -/
theorem step_elapsed_lt (i : Input) (s : App)
    (hpt : 1 ≤ s.pomodoro_time) (hst : 1 ≤ s.short_break_time)
    (hlb : 1 ≤ s.long_break_time)
    (he : s.elapsed_seconds < currentDuration s) :
    1 ≤ (step i s).pomodoro_time ∧ 1 ≤ (step i s).short_break_time ∧
    1 ≤ (step i s).long_break_time ∧
    (step i s).elapsed_seconds < currentDuration (step i s) := by
  cases i with
  | key c =>
      simp only [step]
      obtain ⟨h1, h2, h3, h4, h5, h6, h7, h8, h9, h10⟩ := check_keys_frame c s
      rw [h2, h3, h4, h9, check_keys_currentDuration]
      exact ⟨hpt, hst, hlb, he⟩
  | tick =>
      simp only [step]
      obtain ⟨f1, f2, f3, f4, f5, f6, f7⟩ := on_tick_frame s
      rw [f4, f5, f6]
      exact ⟨hpt, hst, hlb, on_tick_elapsed_lt s hpt hst hlb⟩

/-- Any sequence of control-loop events keeps the elapsed time strictly
    below the duration of the current interval kind, starting from a state
    with positive durations and the bound. -/
theorem steps_elapsed_lt (l : List Input) (s : App)
    (hpt : 1 ≤ s.pomodoro_time) (hst : 1 ≤ s.short_break_time)
    (hlb : 1 ≤ s.long_break_time)
    (he : s.elapsed_seconds < currentDuration s) :
    (steps l s).elapsed_seconds < currentDuration (steps l s) := by
  induction l generalizing s with
  | nil => exact he
  | cons i rest ih =>
      obtain ⟨g1, g2, g3, g4⟩ := step_elapsed_lt i s hpt hst hlb he
      exact ih (step i s) g1 g2 g3 g4

/-- Claim C9: in every state reachable from a fresh default session by any
    sequence of commands and ticks, the elapsed time is strictly below the
    configured duration of the current interval kind (the default durations
    are all at least 1) — it never overshoots the interval's target
    length. -/
theorem c9_elapsed_never_overshoots (l : List Input) :
    (steps l App.default).elapsed_seconds <
      currentDuration (steps l App.default) :=
  steps_elapsed_lt l App.default (by decide) (by decide) (by decide) (by decide)

end PomodoroTui
